import Mathlib

/-!
# Verification of the xactor actor-runtime core

A shallow embedding of the actor lifecycle engine of the `xactor` crate:
the mailbox-driven event loop of `ActorManager::start_actor` (src/actor.rs),
the `StreamHandler` default hooks (src/actor.rs), and the `Service` /
`LocalService` registries (src/service.rs).

Modelling conventions:
* Machine-level channel handles (`UnboundedSender`, `oneshot::Sender`) are not
  data the claims inspect; the mailbox is embedded as the list of work items
  the event loop will dequeue, in FIFO order, and self-enqueued items
  (e.g. `ctx.stop`) are appended to the back of that list.
* An `Exec` work item's boxed closure becomes a Lean function from the actor
  state and context to the new actor state, the new context, the list of work
  items the body enqueued onto its own mailbox while running, and a list of
  observable steps of the handler body (used only to talk about execution
  order in traces; the `id` on `Exec` is likewise a ghost label).
* The event loop may diverge (handlers can keep self-enqueuing), so it is
  written with explicit fuel and returns `none` on fuel exhaustion.
* `Context` internals (`context.rs`) are not part of the sources; the pieces
  the claims need (`Context::new` id freshness, `Context::stop`,
  `Context::add_stream`, `abort_streams`, `abort_intervals`) are modelled from
  the spec and marked as such on their declarations.
-/

/-- The per-actor execution context, as the event loop sees it: the actor id,
the registered stream-subscription ids and the registered timer-subscription
ids (`ctx.streams` / `ctx.intervals` in src/actor.rs). -/
structure Ctx where
  actorId : Nat
  streams : List Nat
  intervals : List Nat
deriving DecidableEq, Repr

/-- A mailbox work item, from `ActorEvent` (src/addr.rs, consumed in
src/actor.rs): `Exec` carries a deferred operation against
`(&mut Actor, &mut Context)` (see the module conventions for the encoding),
`Stop` carries an optional termination reason, `RemoveStream` carries a
subscription id. -/
inductive ActorEvent (α : Type) where
  | Exec (id : Nat) (f : α → Ctx → α × Ctx × List (ActorEvent α) × List Nat)
  | Stop (err : Option String)
  | RemoveStream (id : Nat)

/-- Observable effects of one run of the event-loop task, used to state
ordering properties: a step of an `Exec` body, the `stopped` hook running,
one stream / interval cancellation, and the ExitSignal firing. -/
inductive Effect where
  | ExecStep (id : Nat) (step : Nat)
  | StoppedHook
  | CancelStream (id : Nat)
  | CancelInterval (id : Nat)
  | ExitSignal
deriving DecidableEq, Repr

/-- How the `while let Some(event) = rx.next().await` loop exited: the
channel yielded `None` (mailbox closed), or a `Stop` item was dequeued. -/
inductive ExitKind where
  | mailboxClosed
  | stopRequested (reason : Option String)
deriving DecidableEq, Repr

/-- The `ActorEvent::RemoveStream` arm of the loop (src/actor.rs): lock
`ctx.streams`; if it contains the id, remove it. -/
def ctxRemoveStream (c : Ctx) (i : Nat) : Ctx :=
  if c.streams.contains i then { c with streams := c.streams.erase i } else c

/-- The mailbox-consumption loop of the task spawned by
`ActorManager::start_actor` (src/actor.rs): dequeue the next item; on `Exec`
run its operation to completion (its self-enqueued items going to the back of
the mailbox) before dequeuing again; on `Stop` break immediately; on
`RemoveStream` update the context; when the mailbox is exhausted, exit.
Returns the final actor state, final context, the trace of handler-body steps
and the exit kind, or `none` when the fuel ran out. -/
def runEvents {α : Type} (fuel : Nat) (a : α) (c : Ctx) (q : List (ActorEvent α)) :
    Option (α × Ctx × List Effect × ExitKind) :=
  match q with
  | [] => some (a, c, [], ExitKind.mailboxClosed)
  | ActorEvent.Stop r :: _ => some (a, c, [], ExitKind.stopRequested r)
  | ActorEvent.RemoveStream i :: rest =>
    match fuel with
    | 0 => none
    | Nat.succ fuel => runEvents fuel a (ctxRemoveStream c i) rest
  | ActorEvent.Exec i f :: rest =>
    match fuel with
    | 0 => none
    | Nat.succ fuel =>
      match f a c with
      | (a1, c1, enq, steps) =>
        match runEvents fuel a1 c1 (rest ++ enq) with
        | none => none
        | some (a2, c2, tr, k) => some (a2, c2, steps.map (Effect.ExecStep i) ++ tr, k)

/-- The `Actor` trait hooks an actor type supplies (src/actor.rs):
`started` may fail, `stopped` may not. Both receive `&mut self` and
`&mut Context`. -/
structure ActorImpl (α : Type) where
  started : α → Ctx → Except String (α × Ctx)
  stopped : α → Ctx → α × Ctx

/-- The shutdown tail of the spawned task (src/actor.rs): after the loop
exits, `actor.stopped(&mut ctx)` runs, then `ctx.abort_streams()`, then
`ctx.abort_intervals()`, then `tx_exit.send(())`. Modelled from the spec for
the parts outside src/: `abort_streams` cancels every remaining registered
stream subscription, `abort_intervals` every remaining registered timer
subscription, and the oneshot `tx_exit` fires the ExitSignal once. -/
def shutdownTrace (c : Ctx) : List Effect :=
  Effect.StoppedHook ::
    (c.streams.map Effect.CancelStream ++ c.intervals.map Effect.CancelInterval ++
      [Effect.ExitSignal])

/-- The whole body of the task spawned by `ActorManager::start_actor`
(src/actor.rs): run the event loop, then run `stopped`, then issue the
cancellations and fire the ExitSignal, in that order. -/
def runLoop {α : Type} (impl : ActorImpl α) (fuel : Nat) (a : α) (c : Ctx)
    (q : List (ActorEvent α)) : Option (α × Ctx × List Effect) :=
  match runEvents fuel a c q with
  | none => none
  | some (a1, c1, tr, _) =>
    match impl.stopped a1 c1 with
    | (a2, c2) => some (a2, c2, tr ++ shutdownTrace c2)

/-- The execution log of the same loop as `runEvents`: the (ghost id, steps)
pair of each `Exec` item the loop actually executes, in dequeue order, and
nothing else. It follows `runEvents` case for case (same items dequeued,
same `Exec` bodies applied, same fuel), so on any successful run it is the
canonical record of which handler bodies ran and in which order; serialized
execution is then the statement that the run's trace is exactly the
concatenation of these bodies' step blocks in log order. -/
def execLog {α : Type} (fuel : Nat) (a : α) (c : Ctx) (q : List (ActorEvent α)) :
    Option (List (Nat × List Nat)) :=
  match q with
  | [] => some []
  | ActorEvent.Stop _ :: _ => some []
  | ActorEvent.RemoveStream i :: rest =>
    match fuel with
    | 0 => none
    | Nat.succ fuel => execLog fuel a (ctxRemoveStream c i) rest
  | ActorEvent.Exec i f :: rest =>
    match fuel with
    | 0 => none
    | Nat.succ fuel =>
      match f a c with
      | (a1, c1, enq, steps) =>
        match execLog fuel a1 c1 (rest ++ enq) with
        | none => none
        | some blocks => some ((i, steps) :: blocks)

/-- An actor address (src/addr.rs is not under verification; the claims only
use the `actor_id` an `Addr` carries, and clones compare by it). -/
structure Addr where
  actorId : Nat
deriving DecidableEq, Repr

/-- `ActorManager` (src/actor.rs) as the claims see it: it owns the context
built by `Context::new`. Modelled from the spec: `Context::new` (not in src/)
assigns the context a fresh `ActorId`, with no stream or timer subscriptions
registered yet; freshness is represented by the caller threading a counter. -/
structure ActorManager (α : Type) where
  ctx : Ctx

/-- `ActorManager::new` with the fresh actor id made explicit. -/
def newManager (α : Type) (freshId : Nat) : ActorManager α :=
  ⟨{ actorId := freshId, streams := [], intervals := [] }⟩

/-- `ActorManager::address` (src/actor.rs): the address of the managed
actor, carrying the context's actor id. -/
def ActorManager.address {α : Type} (m : ActorManager α) : Addr :=
  { actorId := m.ctx.actorId }

/-- `ActorManager::start_actor` up to the point the event-loop task is
spawned (src/actor.rs): read the actor id from the context, await
`actor.started(&mut ctx)` propagating its error with `?` (so on failure
nothing is spawned and no `Addr` is returned), otherwise hand the actor and
context to the spawned task and return the `Addr`. The returned pair is the
state the spawned task starts from. -/
def startActor {α : Type} (impl : ActorImpl α) (m : ActorManager α) (actor : α) :
    Except String (Addr × (α × Ctx)) :=
  match impl.started actor m.ctx with
  | Except.error e => Except.error e
  | Except.ok (a1, c1) => Except.ok ({ actorId := m.ctx.actorId }, (a1, c1))

/-!
## Registries (src/service.rs)

Registry storage is a `HashMap<TypeId, Box<dyn Any + Send>>`; the erased
value under a key is always the `Addr<Self>` whose type produced that
`TypeId`, so the checked downcast on retrieval always succeeds (spec §4.6
calls a mismatch a never-should-happen internal invariant violation). The
map is embedded as an association list from the type-identity token (a `Nat`)
to the stored address's actor id, with `insertEntry` replacing an existing
key like `HashMap::insert`.
-/

/-- `HashMap::get` on the embedded registry storage. -/
def lookupEntry : List (Nat × Nat) → Nat → Option Nat
  | [], _ => none
  | (k, v) :: rest, t => if k = t then some v else lookupEntry rest t

/-- `HashMap::insert` on the embedded registry storage: replaces the value
under an existing key, otherwise appends the new entry. -/
def insertEntry : List (Nat × Nat) → Nat → Nat → List (Nat × Nat)
  | [], t, v => [(t, v)]
  | (k, w) :: rest, t, v =>
    if k = t then (t, v) :: rest else (k, w) :: insertEntry rest t v

/-- The process-wide registry state: `REGISTRY` is a `OnceCell`, so `none`
means no `start_service` call has ever initialized it; `nextId` is the
freshness counter for `Context::new` actor ids. -/
structure ServiceState where
  registry : Option (List (Nat × Nat))
  nextId : Nat
deriving DecidableEq, Repr

/-- `Service::start_service` (src/service.rs): `REGISTRY.get_or_init`
(initializing to the empty map on first use), lock the map, build a new
`ActorManager`, insert its address under `TypeId::of::<Self>`, drop the
lock, then `actor_manager.start_actor(self).await`. -/
def serviceStartService {α : Type} (impl : ActorImpl α) (typeId : Nat)
    (s : ServiceState) (actor : α) :
    ServiceState × Except String (Addr × (α × Ctx)) :=
  let r := s.registry.getD []
  let m := newManager α s.nextId
  let r1 := insertEntry r typeId m.address.actorId
  ({ registry := some r1, nextId := s.nextId + 1 }, startActor impl m actor)

/-- `Service::from_registry` (src/service.rs): `REGISTRY.get()` fails with
"registry not initialized" when the `OnceCell` was never initialized; then
a missing entry for the type fails with "service not found"; otherwise the
stored `Addr` is downcast and cloned. -/
def serviceFromRegistry (s : ServiceState) (typeId : Nat) : Except String Addr :=
  match s.registry with
  | none => Except.error "registry not initialized"
  | some r =>
    match lookupEntry r typeId with
    | some aid => Except.ok { actorId := aid }
    | none => Except.error "service not found"

/-- The thread-local registry state: `LOCAL_REGISTRY` is a `thread_local!`
`RefCell` map, always present (no `OnceCell` layer), plus the id-freshness
counter. -/
structure LocalState where
  registry : List (Nat × Nat)
  nextId : Nat
deriving DecidableEq, Repr

/-- `LocalService::start_service` (src/service.rs): look the type up in the
thread-local map first; if an entry exists, return a clone of the stored
`Addr` (no manager is built, the passed-in actor is dropped, and no task is
spawned — the `Option` payload is `none`); only otherwise run
`ActorManager::new().start_actor(self).await?` and, on success, insert the
fresh address and return it together with the spawned task's start state. -/
def localStartService {α : Type} (impl : ActorImpl α) (typeId : Nat)
    (s : LocalState) (actor : α) :
    LocalState × Except String (Addr × Option (α × Ctx)) :=
  match lookupEntry s.registry typeId with
  | some aid => (s, Except.ok ({ actorId := aid }, none))
  | none =>
    match startActor impl (newManager α s.nextId) actor with
    | Except.error e => ({ s with nextId := s.nextId + 1 }, Except.error e)
    | Except.ok (addr, task) =>
      ({ registry := insertEntry s.registry typeId addr.actorId,
         nextId := s.nextId + 1 },
       Except.ok (addr, some task))

/-- `LocalService::from_registry` (src/service.rs): a clone of the stored
`Addr` when the thread-local map has an entry for the type, otherwise the
"service not found" error. -/
def localFromRegistry (typeId : Nat) (s : LocalState) : Except String Addr :=
  match lookupEntry s.registry typeId with
  | some aid => Except.ok { actorId := aid }
  | none => Except.error "service not found"

/-!
## Stream handling (src/actor.rs `StreamHandler`, spec §4.4)
-/

/-- The `StreamHandler` trait hooks (src/actor.rs), each encoded like an
`Exec` body: new actor state, new context, the items the body enqueued onto
its own mailbox, and its observable steps. -/
structure StreamHandlerImpl (α β : Type) where
  handle : α → Ctx → β → α × Ctx × List (ActorEvent α) × List Nat
  startedHook : α → Ctx → α × Ctx × List (ActorEvent α) × List Nat
  finished : α → Ctx → α × Ctx × List (ActorEvent α) × List Nat

/-- Modelled from the spec: `Context::stop(reason)` (context.rs, not in
src/) enqueues a `Stop` item on the actor's own mailbox — self-termination
is a specially-tagged self-sent message. -/
def ctxStopEnqueue {α : Type} (reason : Option String) : List (ActorEvent α) :=
  [ActorEvent.Stop reason]

/-- The default `StreamHandler::started` (src/actor.rs): `async move {}` —
does nothing. -/
def defaultStreamStarted {α : Type} : α → Ctx → α × Ctx × List (ActorEvent α) × List Nat :=
  fun a c => (a, c, [], [])

/-- The default `StreamHandler::finished` (src/actor.rs):
`async move { ctx.stop(None); }` — calls `ctx.stop` with no reason. -/
def defaultStreamFinished {α : Type} : α → Ctx → α × Ctx × List (ActorEvent α) × List Nat :=
  fun a c => (a, c, ctxStopEnqueue none, [])

/-- Modelled from the spec: `Context::add_stream`'s auxiliary task
(context.rs, not in src/) enqueues one `Exec` invoking
`StreamHandler::started`, then one `Exec` invoking `StreamHandler::handle`
per produced item in arrival order, and on exhaustion one `Exec` invoking
`StreamHandler::finished` followed by `RemoveStream` for the subscription
id. The `Exec` ids are ghost trace labels: `started` gets 0, the k-th item
gets k, `finished` gets `items.length + 1`. -/
def streamEvents {α β : Type} (sh : StreamHandlerImpl α β) (subId : Nat)
    (items : List β) : List (ActorEvent α) :=
  ActorEvent.Exec 0 sh.startedHook ::
    ((List.enumFrom 1 items).map fun p =>
        ActorEvent.Exec p.1 (fun a c => sh.handle a c p.2)) ++
      [ActorEvent.Exec (items.length + 1) sh.finished,
       ActorEvent.RemoveStream subId]

/-- A stream handler whose `handle` only folds the item into the actor state
(emitting one ghost step per invocation) and which keeps the default
`started` and `finished` hooks. -/
def pureStreamHandler {α β : Type} (h : α → β → α) : StreamHandlerImpl α β where
  handle := fun a c x => (h a x, c, [], [0])
  startedHook := defaultStreamStarted
  finished := defaultStreamFinished

/-- `Actor::start` (src/actor.rs): `ActorManager::new().start_actor(self)`,
with the fresh actor id explicit. -/
def actorStart {α : Type} (impl : ActorImpl α) (freshId : Nat) (actor : α) :
    Except String (Addr × (α × Ctx)) :=
  startActor impl (newManager α freshId) actor

/-- The actor id of a successful start result, `none` on failure. -/
def okAddrId {α : Type} : Except String (Addr × (α × Ctx)) → Option Nat
  | Except.ok p => some p.1.actorId
  | Except.error _ => none

/-- The post-`started` actor state handed to the spawned event loop on a
successful start, `none` on failure. -/
def okActorState {α : Type} : Except String (Addr × (α × Ctx)) → Option α
  | Except.ok p => some p.2.1
  | Except.error _ => none

/-- An actor over `Nat` state whose `started` hook increments the state, so
that a run of the hook is visible in the start result. -/
def exCountingImpl : ActorImpl Nat where
  started := fun a c => Except.ok (a + 1, c)
  stopped := fun a c => (a, c)

/-- Looking a key up right after inserting it yields the inserted value. -/
theorem lookupEntry_insertEntry (r : List (Nat × Nat)) (t v : Nat) :
    lookupEntry (insertEntry r t v) t = some v := by
  induction r with
  | nil => simp [insertEntry, lookupEntry]
  | cons kv rest ih =>
    by_cases hk : kv.1 = t
    · simp [insertEntry, hk, lookupEntry]
    · simpa [insertEntry, hk, lookupEntry] using ih

/-- Every effect the mailbox-consumption loop itself emits is a handler-body
step: `stopped`, the cancellations and the ExitSignal only happen in the
shutdown tail after the loop has exited. -/
theorem runEvents_execSteps {α : Type} (fuel : Nat) (a : α) (c : Ctx)
    (q : List (ActorEvent α)) (a1 : α) (c1 : Ctx) (tr : List Effect) (k : ExitKind)
    (h : runEvents fuel a c q = some (a1, c1, tr, k)) :
    ∀ e ∈ tr, ∃ i s, e = Effect.ExecStep i s := by
  induction fuel generalizing a c q a1 c1 tr k with
  | zero =>
    cases q with
    | nil =>
      simp only [runEvents, Option.some.injEq, Prod.mk.injEq] at h
      obtain ⟨-, -, htr, -⟩ := h
      subst htr
      simp
    | cons ev rest =>
      cases ev with
      | Stop r =>
        simp only [runEvents, Option.some.injEq, Prod.mk.injEq] at h
        obtain ⟨-, -, htr, -⟩ := h
        subst htr
        simp
      | RemoveStream i => simp [runEvents] at h
      | Exec i f => simp [runEvents] at h
  | succ fuel ih =>
    cases q with
    | nil =>
      simp only [runEvents, Option.some.injEq, Prod.mk.injEq] at h
      obtain ⟨-, -, htr, -⟩ := h
      subst htr
      simp
    | cons ev rest =>
      cases ev with
      | Stop r =>
        simp only [runEvents, Option.some.injEq, Prod.mk.injEq] at h
        obtain ⟨-, -, htr, -⟩ := h
        subst htr
        simp
      | RemoveStream i =>
        simp only [runEvents] at h
        exact ih _ _ _ _ _ _ _ h
      | Exec i f =>
        simp only [runEvents] at h
        rcases hfc : f a c with ⟨a1', c1', enq, steps⟩
        rw [hfc] at h
        cases hrec : runEvents fuel a1' c1' (rest ++ enq) with
        | none => rw [hrec] at h; simp at h
        | some r =>
          obtain ⟨a2', c2', tr', k'⟩ := r
          rw [hrec] at h
          simp only [Option.some.injEq, Prod.mk.injEq] at h
          obtain ⟨-, -, htr, -⟩ := h
          intro e he
          rw [← htr] at he
          rcases List.mem_append.mp he with hmap | htail
          · rcases List.mem_map.mp hmap with ⟨s, -, rfl⟩
            exact ⟨i, s, rfl⟩
          · exact ih _ _ _ _ _ _ _ hrec e htail

/-- Everything queued after a `Stop` item — however deep in the mailbox the
`Stop` sits — is irrelevant to the loop's result: the loop result on
`pre ++ Stop :: post` equals the one on `pre ++ [Stop]`. -/
theorem runEvents_stop_discard {α : Type} (fuel : Nat) (a : α) (c : Ctx)
    (e : Option String) (pre post : List (ActorEvent α)) :
    runEvents fuel a c (pre ++ ActorEvent.Stop e :: post)
      = runEvents fuel a c (pre ++ [ActorEvent.Stop e]) := by
  induction fuel generalizing a c pre post with
  | zero =>
    cases pre with
    | nil => simp [runEvents]
    | cons ev pre =>
      cases ev with
      | Stop r => simp [runEvents]
      | RemoveStream i => simp [runEvents]
      | Exec i f => simp [runEvents]
  | succ fuel ih =>
    cases pre with
    | nil => simp [runEvents]
    | cons ev pre =>
      cases ev with
      | Stop r => simp [runEvents]
      | RemoveStream i =>
        simp only [List.cons_append, runEvents]
        exact ih _ _ _ _
      | Exec i f =>
        simp only [List.cons_append, runEvents]
        rcases hfc : f a c with ⟨a1, c1, enq, steps⟩
        dsimp only
        have h1 : ∀ q1 q2 : List (ActorEvent α), q1 = q2 →
            runEvents fuel a1 c1 q1 = runEvents fuel a1 c1 q2 := by
          intro q1 q2 hq
          rw [hq]
        have h2 : runEvents fuel a1 c1 ((pre ++ ActorEvent.Stop e :: post) ++ enq)
            = runEvents fuel a1 c1 ((pre ++ [ActorEvent.Stop e]) ++ enq) := by
          have e1 : (pre ++ ActorEvent.Stop e :: post) ++ enq
              = pre ++ ActorEvent.Stop e :: (post ++ enq) := by simp
          have e2 : (pre ++ [ActorEvent.Stop e]) ++ enq
              = pre ++ ActorEvent.Stop e :: enq := by simp
          rw [e1, e2, ih a1 c1 pre (post ++ enq)]
          have e3 : pre ++ ActorEvent.Stop e :: enq
              = pre ++ ActorEvent.Stop e :: ([] ++ enq) := by simp
          rw [e3, ih a1 c1 pre ([] ++ enq)]
        rw [show (pre.append (ActorEvent.Stop e :: post) ++ enq : List (ActorEvent α))
              = (pre ++ ActorEvent.Stop e :: post) ++ enq from rfl,
            show (pre.append [ActorEvent.Stop e] ++ enq : List (ActorEvent α))
              = (pre ++ [ActorEvent.Stop e]) ++ enq from rfl, h2]

/-- The shutdown tail runs the `stopped` hook exactly once. -/
theorem shutdownTrace_count_stopped (c : Ctx) :
    (shutdownTrace c).count Effect.StoppedHook = 1 := by
  have h1 : List.count Effect.StoppedHook (List.map Effect.CancelStream c.streams) = 0 := by
    rw [List.count_eq_zero]
    simp
  have h2 : List.count Effect.StoppedHook (List.map Effect.CancelInterval c.intervals) = 0 := by
    rw [List.count_eq_zero]
    simp
  simp [shutdownTrace, List.count_cons, List.count_append, h1, h2]

/-- The shutdown tail fires the ExitSignal exactly once. -/
theorem shutdownTrace_count_exit (c : Ctx) :
    (shutdownTrace c).count Effect.ExitSignal = 1 := by
  have h1 : List.count Effect.ExitSignal (List.map Effect.CancelStream c.streams) = 0 := by
    rw [List.count_eq_zero]
    simp
  have h2 : List.count Effect.ExitSignal (List.map Effect.CancelInterval c.intervals) = 0 := by
    rw [List.count_eq_zero]
    simp
  simp [shutdownTrace, List.count_cons, List.count_append, h1, h2]

/-!
## Claim theorems
-/

/-- Claim C1, counterexample. The claim says `Service::start_service` is
idempotent: with an instance already registered, a second call returns the
registered instance's Addr (equal `ActorId`s across two successive calls)
and the passed-in value's lifecycle hooks never run. On the code, the
second call returns actor id 1 while the first returned 0, and the second
passed-in actor's `started` hook did run (its state moved from 0 to 1). -/
theorem c1_counterexample :
    okAddrId (serviceStartService exCountingImpl 7 { registry := none, nextId := 0 } 0).2
      = some 0
  ∧ okAddrId (serviceStartService exCountingImpl 7
        (serviceStartService exCountingImpl 7 { registry := none, nextId := 0 } 0).1 0).2
      = some 1
  ∧ okAddrId (serviceStartService exCountingImpl 7 { registry := none, nextId := 0 } 0).2
      ≠ okAddrId (serviceStartService exCountingImpl 7
          (serviceStartService exCountingImpl 7 { registry := none, nextId := 0 } 0).1 0).2
  ∧ okActorState (serviceStartService exCountingImpl 7
        (serviceStartService exCountingImpl 7 { registry := none, nextId := 0 } 0).1 0).2
      = some 1 := by
  refine ⟨rfl, rfl, ?_, rfl⟩
  decide

/-- Claim C1, amended: `Service::start_service` is not idempotent. Every
call builds a fresh `ActorManager`, unconditionally overwrites the registry
entry for the type with the new manager's address, and starts the passed-in
actor (invoking its `started` hook); two successive successful calls for
the same type yield Addrs with distinct ActorIds. -/
theorem c1_amended {α : Type} (impl : ActorImpl α) (t : Nat) (s : ServiceState)
    (actor actor2 : α) :
    (serviceStartService impl t s actor).1 =
      { registry := some (insertEntry (s.registry.getD []) t s.nextId),
        nextId := s.nextId + 1 }
  ∧ (serviceStartService impl t s actor).2 = startActor impl (newManager α s.nextId) actor
  ∧ (∀ p1 p2, impl.started actor (newManager α s.nextId).ctx = Except.ok p1 →
      impl.started actor2 (newManager α (s.nextId + 1)).ctx = Except.ok p2 →
      okAddrId (serviceStartService impl t s actor).2 = some s.nextId
      ∧ okAddrId (serviceStartService impl t (serviceStartService impl t s actor).1 actor2).2
          = some (s.nextId + 1)
      ∧ okAddrId (serviceStartService impl t s actor).2
          ≠ okAddrId (serviceStartService impl t
              (serviceStartService impl t s actor).1 actor2).2) := by
  refine ⟨rfl, rfl, ?_⟩
  intro p1 p2 h1 h2
  obtain ⟨a1, c1⟩ := p1
  obtain ⟨a2, c2⟩ := p2
  simp only [newManager] at h1 h2
  simp [serviceStartService, startActor, newManager, ActorManager.address, okAddrId, h1, h2]

/-- Claim C1 amended, witness: the amended theorem instantiated on the
counting actor starting from an uninitialized registry. -/
theorem c1_amended_witness :
    (serviceStartService exCountingImpl 7 { registry := none, nextId := 0 } 0).1 =
      { registry := some (insertEntry ((none : Option (List (Nat × Nat))).getD []) 7 0),
        nextId := 0 + 1 }
  ∧ (serviceStartService exCountingImpl 7 { registry := none, nextId := 0 } 0).2 =
      startActor exCountingImpl (newManager Nat 0) 0
  ∧ (∀ p1 p2, exCountingImpl.started 0 (newManager Nat 0).ctx = Except.ok p1 →
      exCountingImpl.started 0 (newManager Nat (0 + 1)).ctx = Except.ok p2 →
      okAddrId (serviceStartService exCountingImpl 7 { registry := none, nextId := 0 } 0).2
        = some 0
      ∧ okAddrId (serviceStartService exCountingImpl 7
            (serviceStartService exCountingImpl 7 { registry := none, nextId := 0 } 0).1 0).2
          = some (0 + 1)
      ∧ okAddrId (serviceStartService exCountingImpl 7 { registry := none, nextId := 0 } 0).2
          ≠ okAddrId (serviceStartService exCountingImpl 7
              (serviceStartService exCountingImpl 7 { registry := none, nextId := 0 } 0).1 0).2) :=
  c1_amended exCountingImpl 7 { registry := none, nextId := 0 } 0 0

/-- Claim C4: if an actor's `started(ctx)` hook returns an error,
`Actor::start` returns exactly that error (the `Except.error` result carries
neither an `Addr` nor a spawned-task state, so no event loop is spawned and
no partially-started actor is observable); if the hook succeeds, `start`
returns an `Addr` carrying that actor's `ActorId` together with the state
handed to the spawned event loop. -/
theorem c4 {α : Type} (impl : ActorImpl α) (freshId : Nat) (actor : α) :
    (∀ e, impl.started actor (newManager α freshId).ctx = Except.error e →
        actorStart impl freshId actor = Except.error e)
  ∧ (∀ p, impl.started actor (newManager α freshId).ctx = Except.ok p →
        actorStart impl freshId actor = Except.ok ({ actorId := freshId }, p)) := by
  constructor
  · intro e he
    simp [actorStart, startActor, he]
  · intro p hp
    obtain ⟨a1, c1⟩ := p
    simp only [newManager] at hp
    simp [actorStart, startActor, hp, newManager]

/-- Claim C4, witness: both branches exercised at concrete actors — one
whose hook fails with "boom", one whose hook succeeds. -/
theorem c4_witness :
    ((ActorImpl.mk (fun (_ : Nat) _ => Except.error "boom") (fun a c => (a, c))).started
        3 (newManager Nat 5).ctx = Except.error "boom" →
      actorStart (ActorImpl.mk (fun (_ : Nat) _ => Except.error "boom") (fun a c => (a, c)))
        5 3 = Except.error "boom")
  ∧ (exCountingImpl.started 3 (newManager Nat 5).ctx
        = Except.ok (4, (newManager Nat 5).ctx) →
      actorStart exCountingImpl 5 3
        = Except.ok ({ actorId := 5 }, (4, (newManager Nat 5).ctx))) :=
  ⟨fun h => (c4 (ActorImpl.mk (fun _ _ => Except.error "boom") (fun a c => (a, c))) 5 3).1
      "boom" h,
   fun h => (c4 exCountingImpl 5 3).2 (4, (newManager Nat 5).ctx) h⟩

/-- Claim C5: `Service::from_registry` fails with "registry not initialized"
when the `OnceCell` storage was never initialized, fails with "service not
found" when the registry exists but has no entry for the type, and otherwise
returns a clone of the stored `Addr` for the type. -/
theorem c5 (t : Nat) :
    (∀ s : ServiceState, s.registry = none →
        serviceFromRegistry s t = Except.error "registry not initialized")
  ∧ (∀ (s : ServiceState) r, s.registry = some r → lookupEntry r t = none →
        serviceFromRegistry s t = Except.error "service not found")
  ∧ (∀ (s : ServiceState) r aid, s.registry = some r → lookupEntry r t = some aid →
        serviceFromRegistry s t = Except.ok { actorId := aid }) := by
  refine ⟨?_, ?_, ?_⟩
  · intro s hs; simp [serviceFromRegistry, hs]
  · intro s r hs hl; simp [serviceFromRegistry, hs, hl]
  · intro s r aid hs hl; simp [serviceFromRegistry, hs, hl]

/-- Claim C5, witness: all three branches at type token 3 — uninitialized
storage, initialized-but-empty registry, and a registry holding actor id 9
for token 3. -/
theorem c5_witness :
    (({ registry := none, nextId := 0 } : ServiceState).registry = none →
        serviceFromRegistry { registry := none, nextId := 0 } 3
          = Except.error "registry not initialized")
  ∧ (({ registry := some [], nextId := 0 } : ServiceState).registry = some [] →
        lookupEntry [] 3 = none →
        serviceFromRegistry { registry := some [], nextId := 0 } 3
          = Except.error "service not found")
  ∧ (({ registry := some [(3, 9)], nextId := 0 } : ServiceState).registry = some [(3, 9)] →
        lookupEntry [(3, 9)] 3 = some 9 →
        serviceFromRegistry { registry := some [(3, 9)], nextId := 0 } 3
          = Except.ok { actorId := 9 }) :=
  ⟨fun h => (c5 3).1 { registry := none, nextId := 0 } h,
   fun h hl => (c5 3).2.1 { registry := some [], nextId := 0 } [] h hl,
   fun h hl => (c5 3).2.2 { registry := some [(3, 9)], nextId := 0 } [(3, 9)] 9 h hl⟩

/-- Claim C6: `LocalService::start_service` is idempotent. With an entry
already registered for the type it returns a clone of the stored `Addr`,
leaves the state unchanged, spawns no task (the task payload is `none`),
and its result does not depend on the passed-in actor value or its hooks at
all — the value is discarded without its lifecycle running; only with no
entry registered does it start the actor and insert the fresh address. -/
theorem c6 {α : Type} (impl impl2 : ActorImpl α) (t : Nat) (s : LocalState)
    (actor actor2 : α) :
    (∀ aid, lookupEntry s.registry t = some aid →
        localStartService impl t s actor = (s, Except.ok ({ actorId := aid }, none))
      ∧ localStartService impl t s actor = localStartService impl2 t s actor2)
  ∧ (∀ p, lookupEntry s.registry t = none →
        impl.started actor (newManager α s.nextId).ctx = Except.ok p →
        localStartService impl t s actor =
          ({ registry := insertEntry s.registry t s.nextId, nextId := s.nextId + 1 },
           Except.ok ({ actorId := s.nextId }, some p))) := by
  constructor
  · intro aid hl
    constructor <;> simp [localStartService, hl]
  · intro p hl hp
    obtain ⟨a1, c1⟩ := p
    simp only [newManager] at hp
    simp [localStartService, hl, startActor, hp, newManager]

/-- Claim C6, witness: both branches — a registry already holding actor id 4
for token 2 (the counting actor's hook is not run: the result equals the one
for a failing-hook actor), and an empty registry where the actor is started
and inserted. -/
theorem c6_witness :
    (lookupEntry ([(2, 4)] : List (Nat × Nat)) 2 = some 4 →
        localStartService exCountingImpl 2 { registry := [(2, 4)], nextId := 0 } 0
          = ({ registry := [(2, 4)], nextId := 0 }, Except.ok ({ actorId := 4 }, none))
      ∧ localStartService exCountingImpl 2 { registry := [(2, 4)], nextId := 0 } 0
          = localStartService
              (ActorImpl.mk (fun (_ : Nat) _ => Except.error "boom") (fun a c => (a, c)))
              2 { registry := [(2, 4)], nextId := 0 } 8)
  ∧ (lookupEntry ([] : List (Nat × Nat)) 2 = none →
        exCountingImpl.started 0 (newManager Nat 0).ctx
          = Except.ok (1, (newManager Nat 0).ctx) →
        localStartService exCountingImpl 2 { registry := [], nextId := 0 } 0
          = ({ registry := insertEntry [] 2 0, nextId := 0 + 1 },
             Except.ok ({ actorId := 0 }, some (1, (newManager Nat 0).ctx)))) :=
  ⟨fun h => (c6 exCountingImpl
      (ActorImpl.mk (fun _ _ => Except.error "boom") (fun a c => (a, c)))
      2 { registry := [(2, 4)], nextId := 0 } 0 8).1 4 h,
   fun h hp => (c6 exCountingImpl exCountingImpl
      2 { registry := [], nextId := 0 } 0 0).2 (1, (newManager Nat 0).ctx) h hp⟩

/-- Claim C9: when no instance is registered for the type and the startup
hook fails inside `LocalService::start_service`, the thread-local registry
is left unchanged, the error is returned, and a subsequent `from_registry`
for the type still fails with "service not found". -/
theorem c9 {α : Type} (impl : ActorImpl α) (t : Nat) (s : LocalState) (actor : α)
    (e : String)
    (hl : lookupEntry s.registry t = none)
    (h : impl.started actor (newManager α s.nextId).ctx = Except.error e) :
    (localStartService impl t s actor).2 = Except.error e
  ∧ (localStartService impl t s actor).1.registry = s.registry
  ∧ localFromRegistry t (localStartService impl t s actor).1
      = Except.error "service not found" := by
  refine ⟨?_, ?_, ?_⟩ <;>
    simp [localStartService, hl, startActor, h, localFromRegistry]

/-- Claim C9, witness: a failing-hook actor on an empty thread-local
registry at token 2. -/
theorem c9_witness :
    (localStartService
        (ActorImpl.mk (fun (_ : Nat) _ => Except.error "boom") (fun a c => (a, c)))
        2 { registry := [], nextId := 0 } 0).2 = Except.error "boom"
  ∧ (localStartService
        (ActorImpl.mk (fun (_ : Nat) _ => Except.error "boom") (fun a c => (a, c)))
        2 { registry := [], nextId := 0 } 0).1.registry = []
  ∧ localFromRegistry 2 (localStartService
        (ActorImpl.mk (fun (_ : Nat) _ => Except.error "boom") (fun a c => (a, c)))
        2 { registry := [], nextId := 0 } 0).1
      = Except.error "service not found" :=
  c9 (ActorImpl.mk (fun _ _ => Except.error "boom") (fun a c => (a, c)))
    2 { registry := [], nextId := 0 } 0 "boom" rfl rfl

/-- Claim C10: `Service::start_service` inserts the registry entry and
releases the lock before awaiting the startup hook, so when `started(ctx)`
fails the error is returned, yet the process-wide registry retains the
entry for the type, and a later `from_registry` succeeds, returning the
`Addr` (actor id `s.nextId`) of the manager whose event loop was never
spawned. -/
theorem c10 {α : Type} (impl : ActorImpl α) (t : Nat) (s : ServiceState) (actor : α)
    (e : String)
    (h : impl.started actor (newManager α s.nextId).ctx = Except.error e) :
    (serviceStartService impl t s actor).2 = Except.error e
  ∧ (serviceStartService impl t s actor).1.registry =
      some (insertEntry (s.registry.getD []) t s.nextId)
  ∧ serviceFromRegistry (serviceStartService impl t s actor).1 t =
      Except.ok { actorId := s.nextId } := by
  refine ⟨?_, rfl, ?_⟩
  · simp [serviceStartService, startActor, h]
  · simp [serviceFromRegistry, serviceStartService, newManager, ActorManager.address,
      lookupEntry_insertEntry]

/-- Claim C10, witness: a failing-hook actor on an uninitialized registry
at token 7 — the entry for id 0 survives and `from_registry` resolves it. -/
theorem c10_witness :
    (serviceStartService
        (ActorImpl.mk (fun (_ : Nat) _ => Except.error "boom") (fun a c => (a, c)))
        7 { registry := none, nextId := 0 } 0).2 = Except.error "boom"
  ∧ (serviceStartService
        (ActorImpl.mk (fun (_ : Nat) _ => Except.error "boom") (fun a c => (a, c)))
        7 { registry := none, nextId := 0 } 0).1.registry =
      some (insertEntry ((none : Option (List (Nat × Nat))).getD []) 7 0)
  ∧ serviceFromRegistry (serviceStartService
        (ActorImpl.mk (fun (_ : Nat) _ => Except.error "boom") (fun a c => (a, c)))
        7 { registry := none, nextId := 0 } 0).1 7 =
      Except.ok { actorId := 0 } :=
  c10 (ActorImpl.mk (fun _ _ => Except.error "boom") (fun a c => (a, c)))
    7 { registry := none, nextId := 0 } 0 "boom" rfl

/-- Claim C2: whenever the event loop exits — on a `Stop` item or because
the mailbox closed (the theorem covers every exit) — the same shutdown path
runs: the trace decomposes as the handler-body steps followed by exactly the
shutdown tail, so `stopped(ctx)` executes exactly once, then every remaining
registered stream subscription is cancelled, then every remaining registered
timer subscription is cancelled, and only then does the ExitSignal fire,
exactly once. -/
theorem c2 {α : Type} (impl : ActorImpl α) (fuel : Nat) (a : α) (c : Ctx)
    (q : List (ActorEvent α)) (a2 : α) (c2 : Ctx) (tr : List Effect)
    (h : runLoop impl fuel a c q = some (a2, c2, tr)) :
    (∃ execPart, (∀ e ∈ execPart, ∃ i s, e = Effect.ExecStep i s)
      ∧ tr = execPart ++ shutdownTrace c2)
  ∧ tr.count Effect.StoppedHook = 1
  ∧ tr.count Effect.ExitSignal = 1 := by
  unfold runLoop at h
  cases hrun : runEvents fuel a c q with
  | none => rw [hrun] at h; simp at h
  | some r =>
    obtain ⟨a1, c1, tr0, k⟩ := r
    rw [hrun] at h
    dsimp only at h
    simp only [Option.some.injEq, Prod.mk.injEq] at h
    obtain ⟨ha, hc, htr⟩ := h
    subst ha
    subst hc
    subst htr
    have hexec := runEvents_execSteps fuel a c q a1 c1 tr0 k hrun
    have h0s : tr0.count Effect.StoppedHook = 0 := by
      rw [List.count_eq_zero]
      intro hmem
      obtain ⟨i, s, he⟩ := hexec _ hmem
      simp at he
    have h0e : tr0.count Effect.ExitSignal = 0 := by
      rw [List.count_eq_zero]
      intro hmem
      obtain ⟨i, s, he⟩ := hexec _ hmem
      simp at he
    refine ⟨⟨tr0, hexec, rfl⟩, ?_, ?_⟩
    · rw [List.count_append, h0s, shutdownTrace_count_stopped]
    · rw [List.count_append, h0e, shutdownTrace_count_exit]

/-- Claim C2, witness: a one-item run (a lone `Stop`) of an actor whose
context holds stream subscription 9 and timer subscription 4 at exit. -/
theorem c2_witness :
    (∃ execPart, (∀ e ∈ execPart, ∃ i s, e = Effect.ExecStep i s)
      ∧ ([Effect.StoppedHook, Effect.CancelStream 9, Effect.CancelInterval 4,
          Effect.ExitSignal] : List Effect)
        = execPart ++ shutdownTrace { actorId := 5, streams := [9], intervals := [4] })
  ∧ ([Effect.StoppedHook, Effect.CancelStream 9, Effect.CancelInterval 4,
      Effect.ExitSignal] : List Effect).count Effect.StoppedHook = 1
  ∧ ([Effect.StoppedHook, Effect.CancelStream 9, Effect.CancelInterval 4,
      Effect.ExitSignal] : List Effect).count Effect.ExitSignal = 1 :=
  c2 exCountingImpl 1 0 { actorId := 5, streams := [9], intervals := [4] }
    [ActorEvent.Stop none] 0 { actorId := 5, streams := [9], intervals := [4] }
    [Effect.StoppedHook, Effect.CancelStream 9, Effect.CancelInterval 4,
      Effect.ExitSignal] rfl

/-- Claim C3: when the loop dequeues a `Stop` item it exits immediately:
everything still queued behind the `Stop` is discarded (the run's result
does not depend on it at all), the captured operations of those items are
never executed (the loop contributes no handler steps and no state change
past the `Stop`), and `stopped(ctx)` still runs exactly once in the
shutdown tail. -/
theorem c3 {α : Type} (impl : ActorImpl α) (fuel : Nat) (a : α) (c : Ctx)
    (e : Option String) (pre post : List (ActorEvent α)) :
    runEvents fuel a c (pre ++ ActorEvent.Stop e :: post)
      = runEvents fuel a c (pre ++ [ActorEvent.Stop e])
  ∧ runEvents fuel a c (ActorEvent.Stop e :: post)
      = some (a, c, [], ExitKind.stopRequested e)
  ∧ runLoop impl fuel a c (ActorEvent.Stop e :: post)
      = some ((impl.stopped a c).1, (impl.stopped a c).2,
          shutdownTrace (impl.stopped a c).2)
  ∧ (shutdownTrace (impl.stopped a c).2).count Effect.StoppedHook = 1 := by
  refine ⟨runEvents_stop_discard fuel a c e pre post, by simp [runEvents], ?_,
    shutdownTrace_count_stopped _⟩
  unfold runLoop
  rcases hst : impl.stopped a c with ⟨x, y⟩
  simp [runEvents, hst]

/-- Claim C7: work items are processed strictly sequentially. On every
successful run, the execution log — the (id, steps) of each `Exec` body the
loop executed, in dequeue order — is defined, and the run's trace is exactly
the concatenation of those bodies' complete step blocks in that order.
Because the log fixes the blocks (it is a function of the run, not an
arbitrary decomposition), every step of an earlier-executed handler body
precedes every step of a later one: the loop awaits each body's completion
before reading the next mailbox item, and no two handler bodies for the
same actor interleave. -/
theorem c7 {α : Type} (fuel : Nat) (a : α) (c : Ctx) (q : List (ActorEvent α))
    (a1 : α) (c1 : Ctx) (tr : List Effect) (k : ExitKind)
    (h : runEvents fuel a c q = some (a1, c1, tr, k)) :
    ∃ blocks : List (Nat × List Nat),
      execLog fuel a c q = some blocks
      ∧ tr = (blocks.map fun b => b.2.map (Effect.ExecStep b.1)).flatten := by
  induction fuel generalizing a c q a1 c1 tr k with
  | zero =>
    cases q with
    | nil =>
      simp only [runEvents, Option.some.injEq, Prod.mk.injEq] at h
      obtain ⟨-, -, htr, -⟩ := h
      subst htr
      exact ⟨[], rfl, rfl⟩
    | cons ev rest =>
      cases ev with
      | Stop r =>
        simp only [runEvents, Option.some.injEq, Prod.mk.injEq] at h
        obtain ⟨-, -, htr, -⟩ := h
        subst htr
        exact ⟨[], rfl, rfl⟩
      | RemoveStream i => simp [runEvents] at h
      | Exec i f => simp [runEvents] at h
  | succ fuel ih =>
    cases q with
    | nil =>
      simp only [runEvents, Option.some.injEq, Prod.mk.injEq] at h
      obtain ⟨-, -, htr, -⟩ := h
      subst htr
      exact ⟨[], rfl, rfl⟩
    | cons ev rest =>
      cases ev with
      | Stop r =>
        simp only [runEvents, Option.some.injEq, Prod.mk.injEq] at h
        obtain ⟨-, -, htr, -⟩ := h
        subst htr
        exact ⟨[], rfl, rfl⟩
      | RemoveStream i =>
        simp only [runEvents] at h
        obtain ⟨blocks, hlog, hb⟩ := ih _ _ _ _ _ _ _ h
        refine ⟨blocks, ?_, hb⟩
        simp only [execLog]
        exact hlog
      | Exec i f =>
        simp only [runEvents] at h
        rcases hfc : f a c with ⟨a1', c1', enq, steps⟩
        rw [hfc] at h
        cases hrec : runEvents fuel a1' c1' (rest ++ enq) with
        | none => rw [hrec] at h; simp at h
        | some r =>
          obtain ⟨a2', c2', tr', k'⟩ := r
          rw [hrec] at h
          simp only [Option.some.injEq, Prod.mk.injEq] at h
          obtain ⟨-, -, htr, -⟩ := h
          subst htr
          obtain ⟨blocks, hlog, hb⟩ := ih _ _ _ _ _ _ _ hrec
          refine ⟨(i, steps) :: blocks, ?_, by simp [hb]⟩
          simp only [execLog]
          rw [hfc, hlog]

/-- Claim C7, witness: two `Exec` items dequeued in order, the first with a
two-step body and the second with a one-step body — the log records them in
execution order and the trace is the first body's two steps followed by the
second body's step, never interleaved. -/
theorem c7_witness :
    ∃ blocks : List (Nat × List Nat),
      execLog 3 (0 : Nat) { actorId := 0, streams := [], intervals := [] }
          [ActorEvent.Exec 1 (fun a c => (a, c, [], [0, 1])),
           ActorEvent.Exec 2 (fun a c => (a, c, [], [0]))]
        = some blocks
      ∧ ([Effect.ExecStep 1 0, Effect.ExecStep 1 1, Effect.ExecStep 2 0] : List Effect)
          = (blocks.map fun b => b.2.map (Effect.ExecStep b.1)).flatten :=
  c7 3 (0 : Nat) { actorId := 0, streams := [], intervals := [] }
    [ActorEvent.Exec 1 (fun a c => (a, c, [], [0, 1])),
     ActorEvent.Exec 2 (fun a c => (a, c, [], [0]))]
    0 { actorId := 0, streams := [], intervals := [] }
    [Effect.ExecStep 1 0, Effect.ExecStep 1 1, Effect.ExecStep 2 0]
    ExitKind.mailboxClosed rfl

/-- Running the loop on the tail of a stream subscription's event sequence
(the per-item `Exec`s from some enumeration offset, then `Exec finished`,
then `RemoveStream`): each item is handled in arrival order, the default
`finished` enqueues a `Stop` behind the already-queued `RemoveStream`, and
the loop exits on that `Stop`. -/
theorem runEvents_streamSeg {α β : Type} (h : α → β → α) (subId m : Nat) :
    ∀ (items : List β) (k fuel : Nat) (a : α) (c : Ctx),
    items.length + 2 ≤ fuel →
    runEvents fuel a c
      ((List.enumFrom k items).map (fun p =>
          ActorEvent.Exec p.1 (fun a c => (h a p.2, c, [], [0]))) ++
        [ActorEvent.Exec m defaultStreamFinished,
         ActorEvent.RemoveStream subId])
      = some (items.foldl h a, ctxRemoveStream c subId,
          (List.enumFrom k items).map (fun p => Effect.ExecStep p.1 0),
          ExitKind.stopRequested none) := by
  intro items
  induction items with
  | nil =>
    intro k fuel a c hf
    obtain ⟨f, rfl⟩ : ∃ f, fuel = f + 2 := ⟨fuel - 2, by omega⟩
    simp [runEvents, defaultStreamFinished, ctxStopEnqueue, List.enumFrom]
  | cons x xs ih =>
    intro k fuel a c hf
    obtain ⟨f, rfl⟩ : ∃ f, fuel = f + 1 := ⟨fuel - 1, by omega⟩
    have hf2 : xs.length + 2 ≤ f := by
      simp only [List.length_cons] at hf
      omega
    have hrec := ih (k + 1) f (h a x) c hf2
    simp only [List.enumFrom, List.map_cons, List.cons_append, runEvents]
    simp only [List.append_eq, List.append_nil]
    rw [hrec]
    simp

/-- Claim C8: the default `StreamHandler::finished` calls `ctx.stop` with no
reason (first conjunct, definitional); hence an actor subscribed to a finite
stream that keeps the default `finished` handles every item in arrival
order, and after the stream is exhausted the loop exits on the `Stop` item
that `finished` enqueued — the actor stops. -/
theorem c8 {α β : Type} (h : α → β → α) (subId fuel : Nat) (a : α) (c : Ctx)
    (items : List β) (hf : items.length + 3 ≤ fuel) :
    defaultStreamFinished (α := α)
      = (fun a c => (a, c, [ActorEvent.Stop none], []))
  ∧ runEvents fuel a c (streamEvents (pureStreamHandler h) subId items)
      = some (items.foldl h a, ctxRemoveStream c subId,
          (List.enumFrom 1 items).map (fun p => Effect.ExecStep p.1 0),
          ExitKind.stopRequested none) := by
  refine ⟨rfl, ?_⟩
  obtain ⟨f, rfl⟩ : ∃ f, fuel = f + 1 := ⟨fuel - 1, by omega⟩
  have hf2 : items.length + 2 ≤ f := by omega
  have hrec := runEvents_streamSeg h subId (items.length + 1) items 1 f a c hf2
  simp only [streamEvents, pureStreamHandler, defaultStreamStarted, runEvents]
  simp only [List.append_eq, List.append_nil]
  rw [hrec]
  simp

/-- Claim C8, witness: a five-item stream into a summing actor — all five
items handled in order, final state 15, subscription 3 removed, loop exited
by the self-enqueued `Stop`. -/
theorem c8_witness :
    defaultStreamFinished (α := Nat)
      = (fun a c => (a, c, [ActorEvent.Stop none], []))
  ∧ runEvents 8 0 { actorId := 5, streams := [3], intervals := [] }
      (streamEvents (pureStreamHandler Nat.add) 3 [1, 2, 3, 4, 5])
      = some ([1, 2, 3, 4, 5].foldl Nat.add 0,
          ctxRemoveStream { actorId := 5, streams := [3], intervals := [] } 3,
          (List.enumFrom 1 [1, 2, 3, 4, 5]).map (fun p => Effect.ExecStep p.1 0),
          ExitKind.stopRequested none) :=
  c8 Nat.add 3 8 0 { actorId := 5, streams := [3], intervals := [] } [1, 2, 3, 4, 5]
    (by decide)
